import Mathlib

/-
  Verification of the Lasso coordinate-descent core specified for the
  Stats-Review repository.  The repository's notebook delegates all algorithmic
  work to a third-party estimator library, so the solver core verified here is
  embedded from the specification's component design (sections 4.1-4.4): the
  coordinate-descent solver, the regularization-path builder and the
  cross-validator, all over exact rational arithmetic.
-/

namespace LassoSpec

/-- Modelled from the spec: the soft-threshold operator
S(z, lam) = sign(z) * max(|z| - lam, 0) of section 4.2, step 3b.  The
operator itself lives in the third-party solver and is absent from the
repository sources. -/
def softThreshold (z lam : ℚ) : ℚ :=
  (if 0 < z then 1 else if z < 0 then -1 else 0) * max (|z| - lam) 0

/-- Modelled from the spec: the dot product of feature column j with a
length-n vector, used throughout section 4. -/

def dotCol (X : ℕ → ℕ → ℚ) (n j : ℕ) (v : ℕ → ℚ) : ℚ :=
  ∑ i ∈ Finset.range n, X i j * v i

/-- Modelled from the spec: the squared norm of feature column j appearing
in the denominator of the coordinate update of section 4.2. -/
def colNormSq (X : ℕ → ℕ → ℚ) (n j : ℕ) : ℚ :=
  ∑ i ∈ Finset.range n, X i j * X i j

/-- Modelled from the spec: the sum of the entries of feature column j
(zero for a centered column). -/

def colSum (X : ℕ → ℕ → ℚ) (n j : ℕ) : ℚ :=
  ∑ i ∈ Finset.range n, X i j

/-- Modelled from the spec: the mean of a length-n vector. -/
def meanVec (v : ℕ → ℚ) (n : ℕ) : ℚ :=
  (∑ i ∈ Finset.range n, v i) / n

/-- Modelled from the spec: the partial residual
rho_j = (1/n) * X_j . (y - b0 - X beta + X_j beta_j) of section 4.2,
step 3a, the residual excluding feature j's current contribution. -/

def rho (X : ℕ → ℕ → ℚ) (y : ℕ → ℚ) (n p : ℕ) (b0 : ℚ) (β : ℕ → ℚ) (j : ℕ) : ℚ :=
  (∑ i ∈ Finset.range n,
    X i j * (y i - b0 - (∑ k ∈ Finset.range p, X i k * β k) + X i j * β j)) / n

/-- Modelled from the spec: one coordinate update of section 4.2, step 3b:
beta_j becomes S(rho_j, lam) / (|X_j|^2 / n). -/
def coordUpdate (X : ℕ → ℕ → ℚ) (y : ℕ → ℚ) (n p : ℕ) (lam b0 : ℚ)
    (β : ℕ → ℚ) (j : ℕ) : ℚ :=
  softThreshold (rho X y n p b0 β j) lam / (colNormSq X n j / n)

/-- Modelled from the spec: one full cyclic sweep of coordinate descent
(section 4.2, step 3), updating coordinates 0, 1, ..., p-1 in order, each
update seeing the updates already made during the sweep. -/

def sweep (X : ℕ → ℕ → ℚ) (y : ℕ → ℚ) (n p : ℕ) (lam b0 : ℚ)
    (β : ℕ → ℚ) : ℕ → ℚ :=
  (List.range p).foldl (fun b j => Function.update b j (coordUpdate X y n p lam b0 b j)) β

/-- Modelled from the spec: the maximum absolute coefficient change across a
full sweep (section 4.2, step 3c), used by the convergence test. -/
def sweepChange (p : ℕ) (β β' : ℕ → ℚ) : ℚ :=
  (List.range p).foldr (fun j m => max |β' j - β j| m) 0

/-- Modelled from the spec: the iteration loop of section 4.2, step 4:
repeat full sweeps until the maximum coefficient change falls below the
tolerance, or the iteration budget is exhausted; in the latter case the
best-effort coefficients are returned with a non-convergence flag
(false), never a failure. -/

def cdIter (X : ℕ → ℕ → ℚ) (y : ℕ → ℚ) (n p : ℕ) (lam b0 tol : ℚ) :
    ℕ → (ℕ → ℚ) → (ℕ → ℚ) × Bool
  | 0, β => (β, false)
  | Nat.succ fuel, β =>
    let β' := sweep X y n p lam b0 β
    if sweepChange p β β' < tol then (β', true)
    else cdIter X y n p lam b0 tol fuel β'

/-- Modelled from the spec: the intercept of section 4.2, step 2:
b0 = mean(y) - sum_j mean(X_j) * beta_j, computed from the warm-start
coefficients (it reduces to mean(y) when the features are centered or the
warm start is zero). -/
def intercept0 (X : ℕ → ℕ → ℚ) (y : ℕ → ℚ) (n p : ℕ) (ws : ℕ → ℚ) : ℚ :=
  meanVec y n - ∑ j ∈ Finset.range p, (colSum X n j / n) * ws j

/-- Modelled from the spec: a single fixed-penalty coordinate-descent solve
(section 4.2): compute the intercept, then iterate sweeps from the
warm-start coefficients.  Returns the coefficients, the convergence flag
and the intercept. -/

def cdSolve (X : ℕ → ℕ → ℚ) (y : ℕ → ℚ) (n p : ℕ) (lam tol : ℚ)
    (maxIter : ℕ) (ws : ℕ → ℚ) : ((ℕ → ℚ) × Bool) × ℚ :=
  let b0 := intercept0 X y n p ws
  (cdIter X y n p lam b0 tol maxIter ws, b0)

/-- Modelled from the spec: lambda_max = max_j |X_j . y| / n of section 4.3,
the smallest penalty that drives all coefficients to zero on centered
features. -/
def lambdaMax (X : ℕ → ℕ → ℚ) (y : ℕ → ℚ) (n p : ℕ) : ℚ :=
  (List.range p).foldr (fun j m => max (|dotCol X n j y| / n) m) 0

/-- Modelled from the spec: the RegularizationPathBuilder of section 4.3.
Log-uniform spacing between lambda_max and lambda_max * eps means the
consecutive ratio is a constant r with r ^ (nAlphas - 1) = eps, so the
path is the geometric sequence lambda_max * r ^ i for i = 0, ...,
nAlphas - 1, in descending order. -/
def buildPath (lmax : ℚ) (nAlphas : ℕ) (r : ℚ) : List ℚ :=
  (List.range nAlphas).map (fun i => lmax * r ^ i)

/-- Modelled from the spec: the FittedModel surfaced by the caller-facing
API of section 6: coefficients, intercept, the cross-validation selected
penalty (when applicable) and the convergence flag (false encodes the
non-fatal NonConvergence warning of section 7). -/
structure FittedModel where
  coef : List ℚ
  intercept : ℚ
  selectedAlpha : Option ℚ
  converged : Bool

/-- Modelled from the spec: the error taxonomy of section 7; only
InvalidInput is fatal, so it is the only failure value of the fitting
entry point. -/

inductive FitError
  | invalidInput
deriving DecidableEq

/-- Modelled from the spec: the configuration struct of section 6: optional
fixed penalty (skipping cross-validation), custom penalty path, path
length, geometric path step, fold count, fold assignment, fold
aggregation order, tolerance and iteration budget. -/
structure Config where
  alpha : Option ℚ
  alphas : List ℚ
  nAlphas : ℕ
  step : ℚ
  k : ℕ
  foldOf : ℕ → ℕ
  order : List ℕ
  tol : ℚ
  maxIter : ℕ

/-- Modelled from the spec: a non-negative penalty is required when a fixed
penalty is supplied (section 4.2 failure clause). -/

def alphaOk : Option ℚ → Prop
  | none => True
  | some a => 0 ≤ a

instance : (o : Option ℚ) → Decidable (alphaOk o)
  | none => Decidable.isTrue trivial
  | some a => inferInstanceAs (Decidable (0 ≤ a))

/-- Modelled from the spec: when cross-validating, the fold count must
satisfy 2 <= k <= n (section 4.4 failure clause). -/
def cvOk : Option ℚ → ℕ → ℕ → Prop
  | some _, _, _ => True
  | none, k, n => 2 ≤ k ∧ k ≤ n

instance : (o : Option ℚ) → (k n : ℕ) → Decidable (cvOk o k n)
  | some _, _, _ => Decidable.isTrue trivial
  | none, k, n => inferInstanceAs (Decidable (2 ≤ k ∧ k ≤ n))

/-- Modelled from the spec: input validation of the fitting entry point
(sections 4.2, 4.4 and 7): matching X/y dimensions, rectangular X, at
least one sample, non-negative fixed penalty, and a fold count in range
when cross-validating. -/

def validInput (X : List (List ℚ)) (y : List ℚ) (cfg : Config) : Prop :=
  X.length = y.length ∧ (∀ row ∈ X, row.length = (X.headD []).length) ∧
    y.length ≠ 0 ∧ alphaOk cfg.alpha ∧ cvOk cfg.alpha cfg.k y.length

instance (X : List (List ℚ)) (y : List ℚ) (cfg : Config) :
    Decidable (validInput X y cfg) :=
  inferInstanceAs (Decidable (_ ∧ _ ∧ _ ∧ _ ∧ _))

/-- Modelled from the spec: the caller's row-major feature matrix viewed as
a total function (out-of-range entries read as 0). -/
def matToFun (X : List (List ℚ)) : ℕ → ℕ → ℚ := fun i j => (X.getD i []).getD j 0

/-- Modelled from the spec: the caller's target vector viewed as a total
function (out-of-range entries read as 0). -/

def vecToFun (y : List ℚ) : ℕ → ℚ := fun i => y.getD i 0

/-- Modelled from the spec: one comparison step of the argmin selection of
section 4.4 step 5: a later pair replaces the incumbent only when its
validation score is strictly smaller, so ties keep the earlier (larger)
penalty. -/
def betterPair (best pr : ℚ × ℚ) : ℚ × ℚ := if pr.2 < best.2 then pr else best

/-- Modelled from the spec: the penalty selection of section 4.4 step 5:
argmin of the validation score over the (penalty, score) pairs, ties
resolved in favor of the earliest pair of the descending path. -/

def selectPair : List (ℚ × ℚ) → ℚ × ℚ
  | [] => (0, 0)
  | q :: rest => rest.foldl betterPair q

/-- Modelled from the spec: the held-out sample indices of fold f
(section 4.4 step 1). -/
def testIdx (n : ℕ) (foldOf : ℕ → ℕ) (f : ℕ) : List ℕ :=
  (List.range n).filter (fun i => foldOf i == f)

/-- Modelled from the spec: the training sample indices of fold f, all
samples not assigned to f (section 4.4 step 3). -/

def trainIdx (n : ℕ) (foldOf : ℕ → ℕ) (f : ℕ) : List ℕ :=
  (List.range n).filter (fun i => !(foldOf i == f))

/-- Modelled from the spec: a fold's data view onto selected rows of the
feature matrix (section 3, ownership note). -/
def subX (X : ℕ → ℕ → ℚ) (idx : List ℕ) : ℕ → ℕ → ℚ :=
  fun i j => X (idx.getD i 0) j

/-- Modelled from the spec: a fold's data view onto selected entries of the
target vector. -/

def subV (v : ℕ → ℚ) (idx : List ℕ) : ℕ → ℚ := fun i => v (idx.getD i 0)

/-- Modelled from the spec: path-wise fitting (section 4.4 step 3): solve
the penalties in path order, warm-starting each solve from the previous
solution; returns the coefficients and intercept per penalty. -/
def pathFit (X : ℕ → ℕ → ℚ) (y : ℕ → ℚ) (n p : ℕ) (tol : ℚ) (maxIter : ℕ) :
    (ℕ → ℚ) → List ℚ → List ((ℕ → ℚ) × ℚ)
  | _, [] => []
  | ws, a :: rest =>
    let s := cdSolve X y n p a tol maxIter ws
    (s.1.1, s.2) :: pathFit X y n p tol maxIter s.1.1 rest

/-- Modelled from the spec: the prediction y_hat = b0 + sum_j beta_j x_j of
section 4.1. -/

def predictAt (p : ℕ) (β : ℕ → ℚ) (b0 : ℚ) (x : ℕ → ℚ) : ℚ :=
  b0 + ∑ j ∈ Finset.range p, β j * x j

/-- Modelled from the spec: mean squared error of fitted coefficients over
the listed held-out sample indices (section 4.4 step 3). -/
def mseOn (X : ℕ → ℕ → ℚ) (y : ℕ → ℚ) (p : ℕ) (idx : List ℕ)
    (β : ℕ → ℚ) (b0 : ℚ) : ℚ :=
  ((idx.map (fun i => (y i - predictAt p β b0 (fun j => X i j)) ^ 2)).sum) / idx.length

/-- Modelled from the spec: the held-out mean squared error of fold f at
path position t: fit the path on the fold's training view, then score the
t-th solution on the fold's held-out samples (section 4.4 step 3). -/

def foldMSE (X : ℕ → ℕ → ℚ) (y : ℕ → ℚ) (n p : ℕ) (alphas : List ℚ)
    (foldOf : ℕ → ℕ) (tol : ℚ) (maxIter : ℕ) (f t : ℕ) : ℚ :=
  let tr := trainIdx n foldOf f
  let sols := pathFit (subX X tr) (subV y tr) tr.length p tol maxIter (fun _ => 0) alphas
  let s := sols.getD t ((fun _ => 0), 0)
  mseOn X y p (testIdx n foldOf f) s.1 s.2

/-- Modelled from the spec: the ValidationScore of section 4.4 step 4: for
each path position, the mean over the k folds (accumulated in the given
fold order) of that penalty's held-out mean squared error. -/
def validationScores (X : ℕ → ℕ → ℚ) (y : ℕ → ℚ) (n p : ℕ) (alphas : List ℚ)
    (k : ℕ) (foldOf : ℕ → ℕ) (order : List ℕ) (tol : ℚ) (maxIter : ℕ) : List ℚ :=
  (List.range alphas.length).map
    (fun t => ((order.map (fun f => foldMSE X y n p alphas foldOf tol maxIter f t)).sum) / k)

/-- Modelled from the spec: the CrossValidator of section 4.4: score the
shared penalty path across folds, select the best penalty, and refit once
at the selected penalty on the full data. -/

def lassoCV (X : ℕ → ℕ → ℚ) (y : ℕ → ℚ) (n p : ℕ) (alphas : List ℚ) (k : ℕ)
    (foldOf : ℕ → ℕ) (order : List ℕ) (tol : ℚ) (maxIter : ℕ) : FittedModel :=
  let sel := selectPair (alphas.zip (validationScores X y n p alphas k foldOf order tol maxIter))
  let final := cdSolve X y n p sel.1 tol maxIter (fun _ => 0)
  FittedModel.mk ((List.range p).map final.1.1) final.2 (some sel.1) final.1.2

/-- Modelled from the spec: the fitting entry point of section 6:
validate the input, then either fit at the caller's fixed penalty or
cross-validate over the (custom or built) penalty path; invalid input is
the only fatal failure. -/
def fit (X : List (List ℚ)) (y : List ℚ) (cfg : Config) : Except FitError FittedModel :=
  if validInput X y cfg then
    match cfg.alpha with
    | some a =>
      let sol := cdSolve (matToFun X) (vecToFun y) y.length (X.headD []).length a
        cfg.tol cfg.maxIter (fun _ => 0)
      Except.ok (FittedModel.mk ((List.range (X.headD []).length).map sol.1.1)
        sol.2 none sol.1.2)
    | none =>
      let lm := lambdaMax (matToFun X) (vecToFun y) y.length (X.headD []).length
      let path := if cfg.alphas.isEmpty then buildPath lm cfg.nAlphas cfg.step else cfg.alphas
      Except.ok (lassoCV (matToFun X) (vecToFun y) y.length (X.headD []).length path
        cfg.k cfg.foldOf cfg.order cfg.tol cfg.maxIter)
  else Except.error FitError.invalidInput

/-- Modelled from the spec: the number of non-zero coefficients of a fitted
model, the sparsity measure of section 8. -/
def nnz (l : List ℚ) : ℕ := (l.filter (fun q => decide (q ≠ 0))).length

/-- The closed form taken by every coordinate update on an orthogonal
design: the partial residual does not depend on the other coefficients. -/

def orthSol (X : ℕ → ℕ → ℚ) (y : ℕ → ℚ) (n : ℕ) (lam b0 : ℚ) (j : ℕ) : ℚ :=
  softThreshold ((dotCol X n j y - b0 * colSum X n j) / n) lam / (colNormSq X n j / n)

/-- The soft threshold returns an exact zero whenever the magnitude of its
argument is at most the penalty. -/
lemma softThreshold_eq_zero {z lam : ℚ} (h : |z| ≤ lam) : softThreshold z lam = 0 := by
  unfold softThreshold
  rw [max_eq_right (sub_nonpos.mpr h), mul_zero]

/-- At penalty zero the soft threshold is the identity. -/

lemma softThreshold_zero_right (z : ℚ) : softThreshold z 0 = z := by
  unfold softThreshold
  rw [sub_zero, max_eq_left (abs_nonneg z)]
  rcases lt_trichotomy z 0 with h | h | h
  · rw [if_neg (by linarith), if_pos h, abs_of_neg h]; ring
  · simp [h]
  · rw [if_pos h, abs_of_pos h, one_mul]

/-- The soft threshold of an argument strictly larger in magnitude than a
nonnegative penalty is nonzero. -/
lemma softThreshold_ne_zero {z lam : ℚ} (h0 : 0 ≤ lam) (h : lam < |z|) :
    softThreshold z lam ≠ 0 := by
  have hz : z ≠ 0 := by
    intro hz
    rw [hz, abs_zero] at h
    exact absurd h (not_lt.mpr h0)
  have hmax : max (|z| - lam) 0 = |z| - lam := max_eq_left (by linarith)
  unfold softThreshold
  rw [hmax]
  rcases lt_trichotomy z 0 with hneg | hzero | hpos
  · rw [if_neg (by linarith), if_pos hneg]
    intro hcontra
    have : |z| - lam ≠ 0 := by linarith
    exact this (by linarith [neg_one_mul (|z| - lam) ▸ hcontra,
      (neg_eq_zero (a := |z| - lam)).mp (by linarith [hcontra])])
  · exact absurd hzero hz
  · rw [if_pos hpos, one_mul]
    intro hcontra
    linarith

/-- C4: whenever the partial residual rho_j has magnitude at most the
penalty lam, the soft threshold produces an exact zero, so the coordinate
update sets the coefficient to exactly zero. -/

theorem C4_soft_threshold_exact_zero (X : ℕ → ℕ → ℚ) (y : ℕ → ℚ) (n p : ℕ)
    (lam b0 : ℚ) (β : ℕ → ℚ) (j : ℕ)
    (h : |rho X y n p b0 β j| ≤ lam) :
    softThreshold (rho X y n p b0 β j) lam = 0 ∧
      coordUpdate X y n p lam b0 β j = 0 := by
  refine ⟨softThreshold_eq_zero h, ?_⟩
  unfold coordUpdate
  rw [softThreshold_eq_zero h, zero_div]

/-- C4 witness: at a concrete dataset, partial residual of magnitude 1 and
penalty 2, the updated coefficient is exactly zero. -/
theorem C4_witness :
    |rho (fun i _ => if i = 0 then 1 else -1) (fun i => if i = 0 then 2 else 0)
        2 1 0 (fun _ => 0) 0| ≤ 2 ∧
      (softThreshold (rho (fun i _ => if i = 0 then 1 else -1)
          (fun i => if i = 0 then 2 else 0) 2 1 0 (fun _ => 0) 0) 2 = 0 ∧
        coordUpdate (fun i _ => if i = 0 then 1 else -1)
          (fun i => if i = 0 then 2 else 0) 2 1 2 0 (fun _ => 0) 0 = 0) :=
  ⟨by norm_num [rho, Finset.sum_range_succ, abs_le],
    C4_soft_threshold_exact_zero (fun i _ => if i = 0 then 1 else -1)
      (fun i => if i = 0 then 2 else 0) 2 1 2 0 (fun _ => 0) 0
      (by norm_num [rho, Finset.sum_range_succ, abs_le])⟩

/-- Any listed value is bounded by the running maximum with base 0. -/
lemma le_foldr_max (g : ℕ → ℚ) :
    ∀ (l : List ℕ) (j : ℕ), j ∈ l → g j ≤ l.foldr (fun a m => max (g a) m) 0 := by
  intro l
  induction l with
  | nil => intro j hj; cases hj
  | cons b t ih =>
    intro j hj
    rcases List.mem_cons.mp hj with h | h
    · subst h; exact le_max_left _ _
    · exact le_trans (ih j h) (le_max_right _ _)

/-- A sweep leaves the all-zero coefficient vector unchanged provided every
coordinate update at the all-zero vector returns zero. -/

lemma foldl_update_zero (X : ℕ → ℕ → ℚ) (y : ℕ → ℚ) (n p : ℕ) (lam b0 : ℚ) :
    ∀ l : List ℕ,
      (∀ j ∈ l, coordUpdate X y n p lam b0 (fun _ => 0) j = 0) →
      l.foldl (fun b j => Function.update b j (coordUpdate X y n p lam b0 b j))
        (fun _ => (0 : ℚ)) = (fun _ => (0 : ℚ)) := by
  intro l
  induction l with
  | nil => intro _; rfl
  | cons b t ih =>
    intro h
    have hb : coordUpdate X y n p lam b0 (fun _ => 0) b = 0 :=
      h b (List.mem_cons_self b t)
    have hstep : Function.update (fun _ => (0 : ℚ)) b
        (coordUpdate X y n p lam b0 (fun _ => 0) b) = (fun _ => (0 : ℚ)) := by
      rw [hb]
      exact Function.update_eq_self b (fun _ => (0 : ℚ))
    simp only [List.foldl_cons, hstep]
    exact ih (fun j hj => h j (List.mem_cons_of_mem b hj))

/-- If a full sweep fixes the coefficient vector, every iteration count
returns that same vector. -/
lemma cdIter_fixes (X : ℕ → ℕ → ℚ) (y : ℕ → ℚ) (n p : ℕ) (lam b0 tol : ℚ)
    (β : ℕ → ℚ) (hsw : sweep X y n p lam b0 β = β) :
    ∀ fuel, (cdIter X y n p lam b0 tol fuel β).1 = β := by
  intro fuel
  induction fuel with
  | zero => rfl
  | succ m ih =>
    simp only [cdIter, hsw]
    split
    · rfl
    · exact ih

/-- With a zero warm start the intercept of section 4.2 step 2 is the mean
of the targets. -/

lemma intercept0_zero_ws (X : ℕ → ℕ → ℚ) (y : ℕ → ℚ) (n p : ℕ) :
    intercept0 X y n p (fun _ => 0) = meanVec y n := by
  simp [intercept0]

/-- At the all-zero coefficient vector the partial residual reduces to the
column-target correlation corrected by the intercept. -/
lemma rho_zero_ws (X : ℕ → ℕ → ℚ) (y : ℕ → ℚ) (n p : ℕ) (b0 : ℚ) (j : ℕ) :
    rho X y n p b0 (fun _ => 0) j = (dotCol X n j y - b0 * colSum X n j) / n := by
  unfold rho dotCol colSum
  congr 1
  rw [Finset.mul_sum, ← Finset.sum_sub_distrib]
  refine Finset.sum_congr rfl (fun i _ => ?_)
  simp only [mul_zero, Finset.sum_const_zero]
  ring

/-- C1: on centered features, fitting at any penalty at least lambda_max
from a zero warm start returns identically zero coefficients. -/

theorem C1_lambda_max_kills_all (X : ℕ → ℕ → ℚ) (y : ℕ → ℚ) (n p : ℕ)
    (lam tol : ℚ) (maxIter : ℕ)
    (hn : 1 ≤ n) (hp : 1 ≤ p)
    (hcent : ∀ j < p, colSum X n j = 0)
    (hlam : lambdaMax X y n p ≤ lam) :
    ∀ j, (cdSolve X y n p lam tol maxIter (fun _ => 0)).1.1 j = 0 := by
  intro j
  have hupd : ∀ k ∈ List.range p,
      coordUpdate X y n p lam (intercept0 X y n p (fun _ => 0)) (fun _ => 0) k = 0 := by
    intro k hk
    have hkp : k < p := List.mem_range.mp hk
    have hrho : rho X y n p (intercept0 X y n p (fun _ => 0)) (fun _ => 0) k =
        dotCol X n k y / n := by
      rw [rho_zero_ws, hcent k hkp, mul_zero, sub_zero]
    have habs : |rho X y n p (intercept0 X y n p (fun _ => 0)) (fun _ => 0) k| ≤ lam := by
      rw [hrho]
      refine le_trans ?_ hlam
      have hcast : |(n : ℚ)| = (n : ℚ) := abs_of_nonneg (Nat.cast_nonneg n)
      have : |dotCol X n k y / n| = |dotCol X n k y| / n := by
        rw [abs_div, hcast]
      rw [this]
      exact le_foldr_max (fun a => |dotCol X n a y| / n) (List.range p) k hk
    unfold coordUpdate
    rw [softThreshold_eq_zero habs, zero_div]
  have hsw : sweep X y n p lam (intercept0 X y n p (fun _ => 0)) (fun _ => 0) =
      (fun _ => 0) :=
    foldl_update_zero X y n p lam _ (List.range p) hupd
  have hfix := cdIter_fixes X y n p lam (intercept0 X y n p (fun _ => 0)) tol
    (fun _ => 0) hsw maxIter
  show (cdIter X y n p lam (intercept0 X y n p (fun _ => 0)) tol maxIter
    (fun _ => 0)).1 j = 0
  rw [hfix]

/-- C1 witness: a concrete centered one-feature dataset fitted at the
penalty lambda_max = 1 returns zero coefficients. -/
theorem C1_witness :
    (1 ≤ 2 ∧ 1 ≤ 1 ∧
      (∀ j < 1, colSum (fun i _ => if i = 0 then 1 else -1) 2 j = 0) ∧
      lambdaMax (fun i _ => if i = 0 then 1 else -1)
        (fun i => if i = 0 then 1 else -1) 2 1 ≤ 1) ∧
    ∀ j, (cdSolve (fun i _ => if i = 0 then 1 else -1)
        (fun i => if i = 0 then 1 else -1) 2 1 1 (1/10) 5 (fun _ => 0)).1.1 j = 0 := by
  have hcent : ∀ j < 1, colSum (fun i _ => if i = 0 then (1:ℚ) else -1) 2 j = 0 := by
    intro j hj
    have hj0 : j = 0 := Nat.lt_one_iff.mp hj
    subst hj0
    norm_num [colSum, Finset.sum_range_succ]
  have hlam : lambdaMax (fun i _ => if i = 0 then (1:ℚ) else -1)
      (fun i => if i = 0 then 1 else -1) 2 1 ≤ 1 := by
    norm_num [lambdaMax, dotCol, List.range_succ, Finset.sum_range_succ, max_def, abs_le]
  exact ⟨⟨by norm_num, by norm_num, hcent, hlam⟩,
    C1_lambda_max_kills_all (fun i _ => if i = 0 then 1 else -1)
      (fun i => if i = 0 then 1 else -1) 2 1 1 (1/10) 5
      (by norm_num) (by norm_num) hcent hlam⟩

/-- C6: for a positive lambda_max and a ratio r strictly between 0 and 1,
the built penalty path has nAlphas entries, every entry positive, is
strictly decreasing, starts at lambda_max and ends at
lambda_max * r ^ (nAlphas - 1), the value lambda_max * eps. -/
theorem C6_path_invariants (lmax r : ℚ) (nA : ℕ)
    (hl : 0 < lmax) (hr0 : 0 < r) (hr1 : r < 1) (hnA : 1 ≤ nA) :
    (buildPath lmax nA r).length = nA ∧
    (∀ x ∈ buildPath lmax nA r, 0 < x) ∧
    List.Pairwise (fun a b => b < a) (buildPath lmax nA r) ∧
    (buildPath lmax nA r).headD 0 = lmax ∧
    (buildPath lmax nA r).getLast? = some (lmax * r ^ (nA - 1)) := by
  obtain ⟨m, rfl⟩ : ∃ m, nA = m + 1 :=
    ⟨nA - 1, (Nat.succ_pred_eq_of_pos hnA).symm⟩
  refine ⟨by simp [buildPath], ?_, ?_, ?_, ?_⟩
  · intro x hx
    rcases List.mem_map.mp hx with ⟨i, _, rfl⟩
    exact mul_pos hl (pow_pos hr0 i)
  · refine List.pairwise_map.mpr ?_
    have hbase : List.Pairwise (· < ·) (List.range (m + 1)) := List.pairwise_lt_range _
    refine hbase.imp ?_
    intro i j hij
    have hpow : r ^ j < r ^ i := pow_lt_pow_right_of_lt_one₀ hr0 hr1 hij
    exact mul_lt_mul_of_pos_left hpow hl
  · rw [buildPath, List.range_succ_eq_map]
    simp
  · rw [buildPath, List.range_succ, List.map_append]
    simp

/-- C6 witness: the path built from lambda_max = 2 with ratio 1/2 and three
values is [2, 1, 1/2] with every stated invariant. -/

theorem C6_witness :
    (0 < (2:ℚ) ∧ 0 < (1/2:ℚ) ∧ (1/2:ℚ) < 1 ∧ 1 ≤ 3) ∧
    ((buildPath 2 3 (1/2)).length = 3 ∧
      (∀ x ∈ buildPath 2 3 (1/2), 0 < x) ∧
      List.Pairwise (fun a b => b < a) (buildPath 2 3 (1/2)) ∧
      (buildPath 2 3 (1/2)).headD 0 = 2 ∧
      (buildPath 2 3 (1/2)).getLast? = some (2 * (1/2) ^ (3 - 1))) :=
  ⟨⟨by norm_num, by norm_num, by norm_num, by norm_num⟩,
    C6_path_invariants 2 (1/2) 3 (by norm_num) (by norm_num) (by norm_num)
      (by norm_num)⟩

/-- C5: the fitting entry point fails, and fails with InvalidInput, exactly
when the input is invalid (dimension mismatch, empty data, negative fixed
penalty, or fold count out of range when cross-validating); on valid
input it always returns a model, so exhausting the iteration budget never
causes a failure. -/
theorem C5_fit_failure_iff (X : List (List ℚ)) (y : List ℚ) (cfg : Config) :
    (fit X y cfg = Except.error FitError.invalidInput ↔ ¬ validInput X y cfg) ∧
    (validInput X y cfg → ∃ m, fit X y cfg = Except.ok m) := by
  by_cases hv : validInput X y cfg
  · constructor
    · constructor
      · intro herr
        rw [fit, if_pos hv] at herr
        rcases hA : cfg.alpha with _ | a <;> simp [hA] at herr
      · intro hnv
        exact absurd hv hnv
    · intro _
      rw [fit, if_pos hv]
      rcases hA : cfg.alpha with _ | a <;> exact ⟨_, rfl⟩
  · constructor
    · exact ⟨fun _ => hv, fun _ => by rw [fit, if_neg hv]⟩
    · intro h
      exact absurd h hv

/-- C5 witness: a concrete well-formed one-sample dataset with a fixed
penalty satisfies both halves of the failure characterization. -/
theorem C5_witness :
    (fit [[1]] [1] (Config.mk (some 1) [] 0 0 0 (fun _ => 0) [] (1/10) 3) =
        Except.error FitError.invalidInput ↔
      ¬ validInput [[1]] [1] (Config.mk (some 1) [] 0 0 0 (fun _ => 0) [] (1/10) 3)) ∧
    (validInput [[1]] [1] (Config.mk (some 1) [] 0 0 0 (fun _ => 0) [] (1/10) 3) →
      ∃ m, fit [[1]] [1] (Config.mk (some 1) [] 0 0 0 (fun _ => 0) [] (1/10) 3) =
        Except.ok m) :=
  C5_fit_failure_iff [[1]] [1] (Config.mk (some 1) [] 0 0 0 (fun _ => 0) [] (1/10) 3)

/-- The target-vector view agrees with the constant on every in-range
index when every listed target equals that constant. -/

lemma vecToFun_const {y : List ℚ} {c : ℚ} (hy : ∀ v ∈ y, v = c) {i : ℕ}
    (hi : i < y.length) : vecToFun y i = c := by
  unfold vecToFun
  rw [List.getD_eq_getElem y 0 hi]
  exact hy _ (List.getElem_mem hi)

/-- The mean of a nonempty constant target vector is that constant. -/
lemma meanVec_const {y : List ℚ} {c : ℚ} (hy : ∀ v ∈ y, v = c)
    (hn : y.length ≠ 0) : meanVec (vecToFun y) y.length = c := by
  unfold meanVec
  rw [Finset.sum_congr rfl (fun i hi => vecToFun_const hy (Finset.mem_range.mp hi)),
    Finset.sum_const, Finset.card_range, nsmul_eq_mul]
  exact mul_div_cancel_left₀ c (Nat.cast_ne_zero.mpr hn)

/-- The soft threshold maps a zero argument to zero at any penalty. -/

lemma softThreshold_zero_arg (lam : ℚ) : softThreshold 0 lam = 0 := by
  unfold softThreshold
  norm_num

/-- With a constant target, intercept equal to that constant and zero
coefficients, every partial residual vanishes. -/
lemma rho_const_target (X : ℕ → ℕ → ℚ) {y : List ℚ} {c : ℚ}
    (hy : ∀ v ∈ y, v = c) (p j : ℕ) :
    rho X (vecToFun y) y.length p c (fun _ => 0) j = 0 := by
  rw [rho_zero_ws]
  have hdot : dotCol X y.length j (vecToFun y) = c * colSum X y.length j := by
    unfold dotCol colSum
    rw [Finset.mul_sum]
    refine Finset.sum_congr rfl (fun i hi => ?_)
    rw [vecToFun_const hy (Finset.mem_range.mp hi)]
    ring
  rw [hdot, mul_comm, sub_self, zero_div]

/-- C9: fitting a constant target at any positive fixed penalty does not
fail: the returned model has all-zero coefficients and intercept equal to
the constant target value. -/

theorem C9_constant_target (X : List (List ℚ)) (y : List ℚ) (c lam : ℚ)
    (cfg : Config)
    (halpha : cfg.alpha = some lam) (hlam : 0 < lam)
    (hdims : X.length = y.length)
    (hrows : ∀ row ∈ X, row.length = (X.headD []).length)
    (hn : y.length ≠ 0)
    (hy : ∀ v ∈ y, v = c) :
    ∃ m, fit X y cfg = Except.ok m ∧
      m.coef = List.replicate (X.headD []).length 0 ∧ m.intercept = c := by
  have hvalid : validInput X y cfg :=
    ⟨hdims, hrows, hn, by rw [halpha]; exact hlam.le, by rw [halpha]; trivial⟩
  have hb0 : intercept0 (matToFun X) (vecToFun y) y.length (X.headD []).length
      (fun _ => 0) = c := by
    rw [intercept0_zero_ws]
    exact meanVec_const hy hn
  have hupd : ∀ j ∈ List.range (X.headD []).length,
      coordUpdate (matToFun X) (vecToFun y) y.length (X.headD []).length lam
        (intercept0 (matToFun X) (vecToFun y) y.length (X.headD []).length (fun _ => 0))
        (fun _ => 0) j = 0 := by
    intro j _
    unfold coordUpdate
    rw [hb0, rho_const_target (matToFun X) hy, softThreshold_zero_arg, zero_div]
  have hsw := foldl_update_zero (matToFun X) (vecToFun y) y.length
    (X.headD []).length lam _ (List.range (X.headD []).length) hupd
  have hfun : (cdSolve (matToFun X) (vecToFun y) y.length (X.headD []).length lam
      cfg.tol cfg.maxIter (fun _ => 0)).1.1 = (fun _ => 0) :=
    cdIter_fixes (matToFun X) (vecToFun y) y.length (X.headD []).length lam _
      cfg.tol (fun _ => 0) hsw cfg.maxIter
  have hcoef : (List.range (X.headD []).length).map
      ((cdSolve (matToFun X) (vecToFun y) y.length (X.headD []).length lam
        cfg.tol cfg.maxIter (fun _ => 0)).1.1) =
      List.replicate (X.headD []).length 0 := by
    rw [hfun, List.map_const', List.length_range]
  have hint : (cdSolve (matToFun X) (vecToFun y) y.length (X.headD []).length lam
      cfg.tol cfg.maxIter (fun _ => 0)).2 = c := hb0
  refine ⟨FittedModel.mk ((List.range (X.headD []).length).map
      ((cdSolve (matToFun X) (vecToFun y) y.length (X.headD []).length lam
        cfg.tol cfg.maxIter (fun _ => 0)).1.1))
      ((cdSolve (matToFun X) (vecToFun y) y.length (X.headD []).length lam
        cfg.tol cfg.maxIter (fun _ => 0)).2) none
      ((cdSolve (matToFun X) (vecToFun y) y.length (X.headD []).length lam
        cfg.tol cfg.maxIter (fun _ => 0)).1.2), ?_, ?_, ?_⟩
  · rw [fit, if_pos hvalid]
    simp only [halpha]
  · exact hcoef
  · exact hint

/-- C9 witness: fitting the constant target vector [5, 5] at penalty 1
returns the intercept-only model with intercept 5. -/
theorem C9_witness :
    ∃ m, fit [[1], [2]] [5, 5]
        (Config.mk (some 1) [] 0 0 0 (fun _ => 0) [] (1/10) 3) = Except.ok m ∧
      m.coef = List.replicate ([[(1:ℚ)], [2]].headD []).length 0 ∧ m.intercept = 5 :=
  C9_constant_target [[1], [2]] [5, 5] 5 1
    (Config.mk (some 1) [] 0 0 0 (fun _ => 0) [] (1/10) 3)
    rfl (by norm_num) (by norm_num) (by norm_num [List.forall_mem_cons])
    (by norm_num) (by norm_num [List.forall_mem_cons])

/-- The comparison step keeps either the incumbent or the challenger. -/

lemma betterPair_cases (q b : ℚ × ℚ) : betterPair q b = b ∨ betterPair q b = q := by
  unfold betterPair
  split
  · exact Or.inl rfl
  · exact Or.inr rfl

/-- The comparison step never increases the incumbent score. -/
lemma betterPair_le_left (q b : ℚ × ℚ) : (betterPair q b).2 ≤ q.2 := by
  unfold betterPair
  split
  · exact le_of_lt (by assumption)
  · exact le_refl _

/-- The comparison step's result scores no worse than the challenger. -/

lemma betterPair_le_right (q b : ℚ × ℚ) : (betterPair q b).2 ≤ b.2 := by
  unfold betterPair
  split
  · exact le_refl _
  · exact not_lt.mp (by assumption)

/-- The selection fold returns one of the candidate pairs. -/
lemma selectFold_mem : ∀ (l : List (ℚ × ℚ)) (q : ℚ × ℚ),
    l.foldl betterPair q ∈ q :: l := by
  intro l
  induction l with
  | nil => intro q; exact List.mem_singleton.mpr rfl
  | cons b t ih =>
    intro q
    rw [List.foldl_cons]
    rcases List.mem_cons.mp (ih (betterPair q b)) with he | ht
    · rw [he]
      rcases betterPair_cases q b with h1 | h1 <;> rw [h1]
      · exact List.mem_cons_of_mem q (List.mem_cons_self b t)
      · exact List.mem_cons_self q (b :: t)
    · exact List.mem_cons_of_mem q (List.mem_cons_of_mem b ht)

/-- The selection fold's score is a lower bound for the incumbent's score
and for every candidate's score. -/

lemma selectFold_le : ∀ (l : List (ℚ × ℚ)) (q : ℚ × ℚ),
    (l.foldl betterPair q).2 ≤ q.2 ∧ ∀ pr ∈ l, (l.foldl betterPair q).2 ≤ pr.2 := by
  intro l
  induction l with
  | nil =>
    intro q
    exact ⟨le_refl _, fun pr h => absurd h (List.not_mem_nil pr)⟩
  | cons b t ih =>
    intro q
    rw [List.foldl_cons]
    obtain ⟨h1, h2⟩ := ih (betterPair q b)
    refine ⟨le_trans h1 (betterPair_le_left q b), ?_⟩
    intro pr hpr
    rcases List.mem_cons.mp hpr with he | ht
    · rw [he]
      exact le_trans h1 (betterPair_le_right q b)
    · exact h2 pr ht

/-- When the candidate penalties are strictly decreasing, any candidate
tying the selection fold's minimal score has a penalty no larger than the
selected one: the fold keeps the earliest, hence largest, minimizer. -/
lemma selectFold_tie : ∀ (l : List (ℚ × ℚ)) (q : ℚ × ℚ),
    List.Pairwise (fun a b : ℚ × ℚ => b.1 < a.1) (q :: l) →
    ∀ pr ∈ q :: l, pr.2 = (l.foldl betterPair q).2 → pr.1 ≤ (l.foldl betterPair q).1 := by
  intro l
  induction l with
  | nil =>
    intro q _ pr hpr _
    rw [List.mem_singleton.mp hpr]
    exact le_refl _
  | cons b t ih =>
    intro q hpw pr hpr htie
    rw [List.foldl_cons] at htie ⊢
    obtain ⟨hq, hbt⟩ := List.pairwise_cons.mp hpw
    obtain ⟨hb, ht⟩ := List.pairwise_cons.mp hbt
    have hpw' : List.Pairwise (fun a b : ℚ × ℚ => b.1 < a.1) (betterPair q b :: t) := by
      refine List.pairwise_cons.mpr ⟨?_, ht⟩
      intro x hx
      rcases betterPair_cases q b with h1 | h1 <;> rw [h1]
      · exact hb x hx
      · exact hq x (List.mem_cons_of_mem b hx)
    obtain ⟨hle1, _⟩ := selectFold_le t (betterPair q b)
    rcases List.mem_cons.mp hpr with hpq | hpr'
    · by_cases hlt : b.2 < q.2
      · have hqb : betterPair q b = b := by unfold betterPair; rw [if_pos hlt]
        rw [hqb] at htie hle1
        rw [hpq] at htie
        linarith
      · have hqb : betterPair q b = q := by unfold betterPair; rw [if_neg hlt]
        rw [hqb] at htie ⊢
        rw [hpq]
        exact ih q (hqb ▸ hpw') q (List.mem_cons_self q t) (hpq ▸ htie)
    · rcases List.mem_cons.mp hpr' with hpb | hpt
      · by_cases hlt : b.2 < q.2
        · have hqb : betterPair q b = b := by unfold betterPair; rw [if_pos hlt]
          rw [hqb] at htie ⊢
          rw [hpb]
          exact ih b (hqb ▸ hpw') b (List.mem_cons_self b t) (hpb ▸ htie)
        · have hqb : betterPair q b = q := by unfold betterPair; rw [if_neg hlt]
          rw [hqb] at htie hle1 ⊢
          rcases List.mem_cons.mp (selectFold_mem t q) with hrq | hrt
          · rw [hpb, hrq]
            exact le_of_lt (hq b (List.mem_cons_self b t))
          · have hq2 : q.2 = (t.foldl betterPair q).2 := by
              have hqle : q.2 ≤ b.2 := not_lt.mp hlt
              rw [hpb] at htie
              exact le_antisymm (htie ▸ hqle) hle1
            have hq1 := ih q (hqb ▸ hpw') q (List.mem_cons_self q t) hq2
            exact absurd hq1 (not_le.mpr (hq _ (List.mem_cons_of_mem b hrt)))
      · exact ih (betterPair q b) hpw' pr (List.mem_cons_of_mem _ hpt) htie

/-- The selected pair is one of the candidate pairs. -/

lemma selectPair_mem {pairs : List (ℚ × ℚ)} (h : pairs ≠ []) :
    selectPair pairs ∈ pairs := by
  cases pairs with
  | nil => exact absurd rfl h
  | cons q t => exact selectFold_mem t q

/-- The selected pair's score is minimal among the candidates. -/
lemma selectPair_le {pairs : List (ℚ × ℚ)} (pr : ℚ × ℚ) (hpr : pr ∈ pairs) :
    (selectPair pairs).2 ≤ pr.2 := by
  cases pairs with
  | nil => exact absurd hpr (List.not_mem_nil pr)
  | cons q t =>
    rcases List.mem_cons.mp hpr with he | ht
    · rw [he]
      exact (selectFold_le t q).1
    · exact (selectFold_le t q).2 pr ht

/-- Among candidates tying the minimal score, the selected pair carries the
largest penalty (the candidate penalties being strictly decreasing). -/

lemma selectPair_tie {pairs : List (ℚ × ℚ)}
    (hpw : List.Pairwise (fun a b : ℚ × ℚ => b.1 < a.1) pairs)
    (pr : ℚ × ℚ) (hpr : pr ∈ pairs) (htie : pr.2 = (selectPair pairs).2) :
    pr.1 ≤ (selectPair pairs).1 := by
  cases pairs with
  | nil => exact absurd hpr (List.not_mem_nil pr)
  | cons q t => exact selectFold_tie t q hpw pr hpr htie

/-- A strictly decreasing penalty list transfers to the first components of
its zip with the score list. -/
lemma pairwise_fst_zip {l1 l2 : List ℚ} (hlen : l1.length ≤ l2.length)
    (h : List.Pairwise (fun a b : ℚ => b < a) l1) :
    List.Pairwise (fun a b : ℚ × ℚ => b.1 < a.1) (l1.zip l2) := by
  have hmap : List.map Prod.fst (l1.zip l2) = l1 := List.map_fst_zip l1 l2 hlen
  exact List.pairwise_map.mp (hmap ▸ h)

/-- The validation score list is aligned with the penalty path. -/

lemma validationScores_length (X : ℕ → ℕ → ℚ) (y : ℕ → ℚ) (n p : ℕ)
    (alphas : List ℚ) (k : ℕ) (foldOf : ℕ → ℕ) (order : List ℕ)
    (tol : ℚ) (maxIter : ℕ) :
    (validationScores X y n p alphas k foldOf order tol maxIter).length =
      alphas.length := by
  simp [validationScores]

/-- The zipped (penalty, score) candidate list of a nonempty path is
nonempty. -/
lemma zip_scores_ne_nil (X : ℕ → ℕ → ℚ) (y : ℕ → ℚ) (n p : ℕ)
    (alphas : List ℚ) (k : ℕ) (foldOf : ℕ → ℕ) (order : List ℕ)
    (tol : ℚ) (maxIter : ℕ) (hne : alphas ≠ []) :
    alphas.zip (validationScores X y n p alphas k foldOf order tol maxIter) ≠ [] := by
  intro hz
  apply hne
  have hlen := congrArg List.length hz
  rw [List.length_zip, validationScores_length, min_self] at hlen
  exact List.eq_nil_of_length_eq_zero hlen

/-- C2: the cross-validator's selected penalty is the argmin of the
validation scores along the path, and among score ties it is the largest
penalty of the strictly decreasing path. -/

theorem C2_cv_selects_argmin_largest (X : ℕ → ℕ → ℚ) (y : ℕ → ℚ) (n p : ℕ)
    (alphas : List ℚ) (k : ℕ) (foldOf : ℕ → ℕ) (order : List ℕ)
    (tol : ℚ) (maxIter : ℕ)
    (hne : alphas ≠ [])
    (hsort : List.Pairwise (fun a b : ℚ => b < a) alphas) :
    (lassoCV X y n p alphas k foldOf order tol maxIter).selectedAlpha =
      some (selectPair (alphas.zip
        (validationScores X y n p alphas k foldOf order tol maxIter))).1 ∧
    selectPair (alphas.zip (validationScores X y n p alphas k foldOf order tol maxIter)) ∈
      alphas.zip (validationScores X y n p alphas k foldOf order tol maxIter) ∧
    ∀ pr ∈ alphas.zip (validationScores X y n p alphas k foldOf order tol maxIter),
      (selectPair (alphas.zip
        (validationScores X y n p alphas k foldOf order tol maxIter))).2 ≤ pr.2 ∧
      (pr.2 = (selectPair (alphas.zip
          (validationScores X y n p alphas k foldOf order tol maxIter))).2 →
        pr.1 ≤ (selectPair (alphas.zip
          (validationScores X y n p alphas k foldOf order tol maxIter))).1) := by
  have hzne := zip_scores_ne_nil X y n p alphas k foldOf order tol maxIter hne
  have hlen : alphas.length ≤
      (validationScores X y n p alphas k foldOf order tol maxIter).length :=
    le_of_eq (validationScores_length X y n p alphas k foldOf order tol maxIter).symm
  exact ⟨rfl, selectPair_mem hzne, fun pr hpr =>
    ⟨selectPair_le pr hpr, fun h => selectPair_tie (pairwise_fst_zip hlen hsort) pr hpr h⟩⟩

/-- C2 witness: a concrete two-penalty cross-validation run on a tiny
dataset satisfies the argmin and tie-break characterization. -/
theorem C2_witness :
    (lassoCV (fun _ _ => 0) (fun _ => 0) 2 1 [2, 1] 2 (fun i => i) [0, 1]
        (1/10) 1).selectedAlpha =
      some (selectPair ([2, 1].zip
        (validationScores (fun _ _ => 0) (fun _ => 0) 2 1 [2, 1] 2 (fun i => i)
          [0, 1] (1/10) 1))).1 ∧
    selectPair ([2, 1].zip (validationScores (fun _ _ => 0) (fun _ => 0) 2 1 [2, 1]
        2 (fun i => i) [0, 1] (1/10) 1)) ∈
      [2, 1].zip (validationScores (fun _ _ => 0) (fun _ => 0) 2 1 [2, 1] 2
        (fun i => i) [0, 1] (1/10) 1) ∧
    ∀ pr ∈ [2, 1].zip (validationScores (fun _ _ => 0) (fun _ => 0) 2 1 [2, 1] 2
        (fun i => i) [0, 1] (1/10) 1),
      (selectPair ([2, 1].zip (validationScores (fun _ _ => 0) (fun _ => 0) 2 1
        [2, 1] 2 (fun i => i) [0, 1] (1/10) 1))).2 ≤ pr.2 ∧
      (pr.2 = (selectPair ([2, 1].zip (validationScores (fun _ _ => 0) (fun _ => 0)
          2 1 [2, 1] 2 (fun i => i) [0, 1] (1/10) 1))).2 →
        pr.1 ≤ (selectPair ([2, 1].zip (validationScores (fun _ _ => 0)
          (fun _ => 0) 2 1 [2, 1] 2 (fun i => i) [0, 1] (1/10) 1))).1) :=
  C2_cv_selects_argmin_largest (fun _ _ => 0) (fun _ => 0) 2 1 [2, 1] 2
    (fun i => i) [0, 1] (1/10) 1 (by simp)
    (by norm_num [List.pairwise_cons])

/-- C8: the cross-validator's selected penalty is unchanged under any
permutation of the order in which per-fold errors are aggregated, so runs
with a fixed fold assignment and penalty path are deterministic. -/

theorem C8_aggregation_order_deterministic (X : ℕ → ℕ → ℚ) (y : ℕ → ℚ)
    (n p : ℕ) (alphas : List ℚ) (k : ℕ) (foldOf : ℕ → ℕ) (tol : ℚ)
    (maxIter : ℕ) (order1 order2 : List ℕ) (hperm : order1.Perm order2) :
    (lassoCV X y n p alphas k foldOf order1 tol maxIter).selectedAlpha =
    (lassoCV X y n p alphas k foldOf order2 tol maxIter).selectedAlpha := by
  have hvs : validationScores X y n p alphas k foldOf order1 tol maxIter =
      validationScores X y n p alphas k foldOf order2 tol maxIter := by
    unfold validationScores
    have hfun : (fun t => ((order1.map
        (fun f => foldMSE X y n p alphas foldOf tol maxIter f t)).sum) / (k : ℚ)) =
        (fun t => ((order2.map
        (fun f => foldMSE X y n p alphas foldOf tol maxIter f t)).sum) / (k : ℚ)) := by
      funext t
      rw [(hperm.map (fun f => foldMSE X y n p alphas foldOf tol maxIter f t)).sum_eq]
    rw [hfun]
  simp only [lassoCV, hvs]

/-- C8 witness: swapping the two folds' aggregation order leaves the
selected penalty of a concrete run unchanged. -/
theorem C8_witness :
    (lassoCV (fun _ _ => 0) (fun _ => 0) 2 1 [1] 2 (fun i => i) [0, 1]
        (1/10) 1).selectedAlpha =
    (lassoCV (fun _ _ => 0) (fun _ => 0) 2 1 [1] 2 (fun i => i) [1, 0]
        (1/10) 1).selectedAlpha :=
  C8_aggregation_order_deterministic (fun _ _ => 0) (fun _ => 0) 2 1 [1] 2
    (fun i => i) (1/10) 1 [0, 1] [1, 0] (by decide)

/-- C10: the cross-validator's selected penalty is always a member of the
caller-supplied candidate path, never an interpolated or fresh value. -/

theorem C10_selected_alpha_mem (X : ℕ → ℕ → ℚ) (y : ℕ → ℚ) (n p : ℕ)
    (alphas : List ℚ) (k : ℕ) (foldOf : ℕ → ℕ) (order : List ℕ)
    (tol : ℚ) (maxIter : ℕ) (hne : alphas ≠ []) :
    ∃ a, (lassoCV X y n p alphas k foldOf order tol maxIter).selectedAlpha = some a ∧
      a ∈ alphas := by
  have hzne := zip_scores_ne_nil X y n p alphas k foldOf order tol maxIter hne
  have hlen : alphas.length ≤
      (validationScores X y n p alphas k foldOf order tol maxIter).length :=
    le_of_eq (validationScores_length X y n p alphas k foldOf order tol maxIter).symm
  refine ⟨(selectPair (alphas.zip
    (validationScores X y n p alphas k foldOf order tol maxIter))).1, rfl, ?_⟩
  have hmem := selectPair_mem hzne
  have := List.mem_map_of_mem Prod.fst hmem
  rwa [List.map_fst_zip alphas _ hlen] at this

/-- C10 witness: a concrete run over the supplied candidate penalties [2, 1]
selects a member of that list. -/
theorem C10_witness :
    ∃ a, (lassoCV (fun _ _ => 0) (fun _ => 0) 2 1 [2, 1] 2 (fun i => i) [0, 1]
        (1/10) 1).selectedAlpha = some a ∧ a ∈ ([2, 1] : List ℚ) :=
  C10_selected_alpha_mem (fun _ _ => 0) (fun _ => 0) 2 1 [2, 1] 2 (fun i => i)
    [0, 1] (1/10) 1 (by simp)

/-- One iteration step of the solver loop that does not yet meet the
tolerance continues with the swept coefficients. -/

lemma cdIter_step_continue (X : ℕ → ℕ → ℚ) (y : ℕ → ℚ) (n p : ℕ)
    (lam b0 tol : ℚ) (fuel : ℕ) (β β' : ℕ → ℚ)
    (hsw : sweep X y n p lam b0 β = β') (hc : ¬ (sweepChange p β β' < tol)) :
    cdIter X y n p lam b0 tol (fuel + 1) β = cdIter X y n p lam b0 tol fuel β' := by
  simp only [cdIter]
  rw [hsw, if_neg hc]

/-- One iteration step of the solver loop that meets the tolerance stops,
reporting convergence. -/
lemma cdIter_step_stop (X : ℕ → ℕ → ℚ) (y : ℕ → ℚ) (n p : ℕ)
    (lam b0 tol : ℚ) (fuel : ℕ) (β β' : ℕ → ℚ)
    (hsw : sweep X y n p lam b0 β = β') (hc : sweepChange p β β' < tol) :
    cdIter X y n p lam b0 tol (fuel + 1) β = (β', true) := by
  simp only [cdIter]
  rw [hsw, if_pos hc]

/-- A coordinate-update fold leaves untouched every coordinate outside the
processed index list. -/

lemma foldl_update_not_mem (upd : (ℕ → ℚ) → ℕ → ℚ) :
    ∀ (l : List ℕ) (s : ℕ → ℚ) (k : ℕ), k ∉ l →
      l.foldl (fun b j => Function.update b j (upd b j)) s k = s k := by
  intro l
  induction l with
  | nil => intro s k _; rfl
  | cons j t ih =>
    intro s k hk
    rw [List.foldl_cons]
    have hkj : k ≠ j := fun h => hk (h ▸ List.mem_cons_self j t)
    rw [ih _ k (fun h => hk (List.mem_cons_of_mem j h))]
    exact Function.update_noteq hkj _ s

/-- If a coordinate-update fold over distinct indices fixes the coefficient
vector, then every individual update is already stationary at that
vector: each coordinate is written exactly once, so a fixed overall
result forces each written value to equal the original one. -/
lemma foldl_update_fixed (upd : (ℕ → ℚ) → ℕ → ℚ) :
    ∀ (l : List ℕ), l.Nodup → ∀ (s : ℕ → ℚ),
      l.foldl (fun b j => Function.update b j (upd b j)) s = s →
      ∀ j ∈ l, upd s j = s j := by
  intro l
  induction l with
  | nil => intro _ s _ j hj; exact absurd hj (List.not_mem_nil j)
  | cons j t ih =>
    intro hnd s hfix m hm
    obtain ⟨hjt, hndt⟩ := List.nodup_cons.mp hnd
    rw [List.foldl_cons] at hfix
    have hsj : s j = upd s j := by
      have h1 := foldl_update_not_mem upd t (Function.update s j (upd s j)) j hjt
      rw [hfix] at h1
      rw [Function.update_same] at h1
      exact h1
    have hs1 : Function.update s j (upd s j) = s := by
      rw [← hsj]
      exact Function.update_eq_self j s
    rcases List.mem_cons.mp hm with hmj | hmt
    · rw [hmj]
      exact hsj.symm
    · exact ih hndt s (by rw [hs1] at hfix; exact hfix) m hmt

/-- C3 amended: a coefficient vector that is an exact fixed point of the
penalty-zero sweep satisfies the ordinary-least-squares normal equations
exactly; the solver's tolerance-based stopping rule, by contrast, does
not bound the distance to the least-squares solution (see the
counterexample). -/

theorem C3_fixed_point_normal_equations (X : ℕ → ℕ → ℚ) (y : ℕ → ℚ)
    (n p : ℕ) (b0 : ℚ) (β : ℕ → ℚ)
    (hn : 0 < n)
    (hs : ∀ j < p, colNormSq X n j ≠ 0)
    (hfix : ∀ j < p, sweep X y n p 0 b0 β j = β j) :
    ∀ j < p, ∑ i ∈ Finset.range n,
      X i j * (y i - b0 - ∑ k ∈ Finset.range p, X i k * β k) = 0 := by
  have hfull : sweep X y n p 0 b0 β = β := by
    funext j
    by_cases hj : j < p
    · exact hfix j hj
    · unfold sweep
      exact foldl_update_not_mem (fun b m => coordUpdate X y n p 0 b0 b m)
        (List.range p) β j (by simpa [List.mem_range] using hj)
  rw [sweep] at hfull
  have hupd := foldl_update_fixed (fun b m => coordUpdate X y n p 0 b0 b m)
    (List.range p) (List.nodup_range p) β hfull
  intro j hj
  have hcu : coordUpdate X y n p 0 b0 β j = β j :=
    hupd j (List.mem_range.mpr hj)
  unfold coordUpdate at hcu
  rw [softThreshold_zero_right] at hcu
  unfold rho at hcu
  have hnq : (n : ℚ) ≠ 0 := Nat.cast_ne_zero.mpr hn.ne'
  have hsj := hs j hj
  have h1 : (∑ i ∈ Finset.range n,
      X i j * (y i - b0 - (∑ k ∈ Finset.range p, X i k * β k) + X i j * β j)) / n /
      (colNormSq X n j / n) =
      (∑ i ∈ Finset.range n,
      X i j * (y i - b0 - (∑ k ∈ Finset.range p, X i k * β k) + X i j * β j)) /
      colNormSq X n j := by
    field_simp
  rw [h1] at hcu
  have key := (div_eq_iff hsj).mp hcu
  have hN : (∑ i ∈ Finset.range n,
      X i j * (y i - b0 - (∑ k ∈ Finset.range p, X i k * β k) + X i j * β j)) =
      (∑ i ∈ Finset.range n,
        X i j * (y i - b0 - (∑ k ∈ Finset.range p, X i k * β k))) +
      colNormSq X n j * β j := by
    unfold colNormSq
    rw [Finset.sum_mul, ← Finset.sum_add_distrib]
    refine Finset.sum_congr rfl (fun i _ => ?_)
    ring
  rw [hN] at key
  linear_combination key

/-- C3 amended witness: on the one-feature dataset y = 3 x the vector with
coefficient 3 is an exact sweep fixed point at penalty zero and satisfies
the normal equations. -/
theorem C3_amended_witness :
    (0 < 3 ∧
      (∀ j < 1, colNormSq (fun i _ => if i = 0 then (1:ℚ) else if i = 1 then 0 else -1) 3 j ≠ 0) ∧
      (∀ j < 1, sweep (fun i _ => if i = 0 then (1:ℚ) else if i = 1 then 0 else -1)
        (fun i => if i = 0 then (3:ℚ) else if i = 1 then 0 else -3)
        3 1 0 0 (fun _ => 3) j = (fun _ => (3:ℚ)) j)) ∧
    ∀ j < 1, ∑ i ∈ Finset.range 3,
      (fun i _ => if i = 0 then (1:ℚ) else if i = 1 then 0 else -1) i j *
        ((fun i => if i = 0 then (3:ℚ) else if i = 1 then 0 else -3) i - 0 -
          ∑ k ∈ Finset.range 1,
            (fun i _ => if i = 0 then (1:ℚ) else if i = 1 then 0 else -1) i k *
              (fun _ => (3:ℚ)) k) = 0 := by
  have hs : ∀ j < 1, colNormSq (fun i _ => if i = 0 then (1:ℚ) else if i = 1 then 0 else -1)
      3 j ≠ 0 := by
    intro j hj
    have hj0 : j = 0 := Nat.lt_one_iff.mp hj
    subst hj0
    norm_num [colNormSq, Finset.sum_range_succ]
  have hfix : ∀ j < 1, sweep (fun i _ => if i = 0 then (1:ℚ) else if i = 1 then 0 else -1)
      (fun i => if i = 0 then (3:ℚ) else if i = 1 then 0 else -3)
      3 1 0 0 (fun _ => 3) j = (fun _ => (3:ℚ)) j := by
    intro j hj
    have hj0 : j = 0 := Nat.lt_one_iff.mp hj
    subst hj0
    norm_num [sweep, List.range_succ, coordUpdate, rho, softThreshold, colNormSq,
      Finset.sum_range_succ, Function.update_apply, abs_of_pos, abs_of_neg,
      abs_of_nonneg, max_def]
  exact ⟨⟨by norm_num, hs, hfix⟩,
    C3_fixed_point_normal_equations
      (fun i _ => if i = 0 then (1:ℚ) else if i = 1 then 0 else -1)
      (fun i => if i = 0 then (3:ℚ) else if i = 1 then 0 else -3)
      3 1 0 (fun _ => 3) (by norm_num) hs hfix⟩

/-- C3 counterexample: a concrete two-feature dataset on which the
penalty-zero coordinate-descent run stops with the convergence flag set
(per-sweep change below the tolerance 1/10), the vector (1, -1) satisfies
the ordinary-least-squares normal equations exactly, yet the returned
first coefficient 159/784 differs from the least-squares value 1 by more
than the tolerance. -/

theorem C3_counterexample :
    (cdSolve (fun i j => if j = 0 then (if i = 0 then (1:ℚ) else if i = 1 then 0 else -1)
        else (if i = 0 then 6/5 else if i = 1 then -2/5 else -4/5))
      (fun i => if i = 0 then (-1/5 : ℚ) else if i = 1 then 2/5 else -1/5)
      3 2 0 (1/10) 10 (fun _ => 0)).1.2 = true ∧
    (∀ j < 2, ∑ i ∈ Finset.range 3,
      (fun i j => if j = 0 then (if i = 0 then (1:ℚ) else if i = 1 then 0 else -1)
        else (if i = 0 then 6/5 else if i = 1 then -2/5 else -4/5)) i j *
        ((fun i => if i = 0 then (-1/5 : ℚ) else if i = 1 then 2/5 else -1/5) i -
          (cdSolve (fun i j => if j = 0 then (if i = 0 then (1:ℚ) else if i = 1 then 0 else -1)
              else (if i = 0 then 6/5 else if i = 1 then -2/5 else -4/5))
            (fun i => if i = 0 then (-1/5 : ℚ) else if i = 1 then 2/5 else -1/5)
            3 2 0 (1/10) 10 (fun _ => 0)).2 -
          ∑ k ∈ Finset.range 2,
            (fun i j => if j = 0 then (if i = 0 then (1:ℚ) else if i = 1 then 0 else -1)
              else (if i = 0 then 6/5 else if i = 1 then -2/5 else -4/5)) i k *
              (if k = 0 then (1:ℚ) else -1)) = 0) ∧
    ¬ (∀ j < 2, |(cdSolve (fun i j => if j = 0 then (if i = 0 then (1:ℚ) else if i = 1 then 0 else -1)
          else (if i = 0 then 6/5 else if i = 1 then -2/5 else -4/5))
        (fun i => if i = 0 then (-1/5 : ℚ) else if i = 1 then 2/5 else -1/5)
        3 2 0 (1/10) 10 (fun _ => 0)).1.1 j - (if j = 0 then (1:ℚ) else -1)| ≤ 1/10) := by
  have h1 : sweep (fun i j => if j = 0 then (if i = 0 then (1:ℚ) else if i = 1 then 0 else -1)
        else (if i = 0 then 6/5 else if i = 1 then -2/5 else -4/5))
      (fun i => if i = 0 then (-1/5 : ℚ) else if i = 1 then 2/5 else -1/5)
      3 2 0 0 (fun _ => 0) = (fun j => if j = 1 then (-3/28 : ℚ) else 0) := by
    funext j
    simp only [sweep, List.range_succ, List.range_zero, List.nil_append, List.cons_append,
      List.foldl_cons, List.foldl_nil]
    rw [Function.update_apply, Function.update_apply]
    by_cases hj1 : j = 1
    · simp only [hj1, if_pos rfl, if_neg (by norm_num : (1:ℕ) ≠ 0)]
      norm_num [coordUpdate, rho, softThreshold, colNormSq, Finset.sum_range_succ,
        Function.update_apply, abs_of_pos, abs_of_neg, abs_of_nonneg, max_def]
    · by_cases hj0 : j = 0
      · simp only [hj0, hj1, if_neg (by norm_num : (0:ℕ) ≠ 1), if_pos rfl]
        norm_num [coordUpdate, rho, softThreshold, colNormSq, Finset.sum_range_succ,
          Function.update_apply, abs_of_pos, abs_of_neg, abs_of_nonneg, max_def]
      · simp [hj0, hj1]
  have h2 : sweep (fun i j => if j = 0 then (if i = 0 then (1:ℚ) else if i = 1 then 0 else -1)
        else (if i = 0 then 6/5 else if i = 1 then -2/5 else -4/5))
      (fun i => if i = 0 then (-1/5 : ℚ) else if i = 1 then 2/5 else -1/5)
      3 2 0 0 (fun j => if j = 1 then (-3/28 : ℚ) else 0) =
      (fun j => if j = 0 then (3/28 : ℚ) else if j = 1 then -159/784 else 0) := by
    funext j
    simp only [sweep, List.range_succ, List.range_zero, List.nil_append, List.cons_append,
      List.foldl_cons, List.foldl_nil]
    rw [Function.update_apply, Function.update_apply]
    by_cases hj1 : j = 1
    · simp only [hj1, if_pos rfl, if_neg (by norm_num : (1:ℕ) ≠ 0)]
      norm_num [coordUpdate, rho, softThreshold, colNormSq, Finset.sum_range_succ,
        Function.update_apply, abs_of_pos, abs_of_neg, abs_of_nonneg, max_def]
    · by_cases hj0 : j = 0
      · simp only [hj0, hj1, if_neg (by norm_num : (0:ℕ) ≠ 1), if_pos rfl]
        norm_num [coordUpdate, rho, softThreshold, colNormSq, Finset.sum_range_succ,
          Function.update_apply, abs_of_pos, abs_of_neg, abs_of_nonneg, max_def]
      · simp [hj0, hj1]
  have h3 : sweep (fun i j => if j = 0 then (if i = 0 then (1:ℚ) else if i = 1 then 0 else -1)
        else (if i = 0 then 6/5 else if i = 1 then -2/5 else -4/5))
      (fun i => if i = 0 then (-1/5 : ℚ) else if i = 1 then 2/5 else -1/5)
      3 2 0 0 (fun j => if j = 0 then (3/28 : ℚ) else if j = 1 then -159/784 else 0) =
      (fun j => if j = 0 then (159/784 : ℚ) else if j = 1 then -6327/21952 else 0) := by
    funext j
    simp only [sweep, List.range_succ, List.range_zero, List.nil_append, List.cons_append,
      List.foldl_cons, List.foldl_nil]
    rw [Function.update_apply, Function.update_apply]
    by_cases hj1 : j = 1
    · simp only [hj1, if_pos rfl, if_neg (by norm_num : (1:ℕ) ≠ 0)]
      norm_num [coordUpdate, rho, softThreshold, colNormSq, Finset.sum_range_succ,
        Function.update_apply, abs_of_pos, abs_of_neg, abs_of_nonneg, max_def]
    · by_cases hj0 : j = 0
      · simp only [hj0, hj1, if_neg (by norm_num : (0:ℕ) ≠ 1), if_pos rfl]
        norm_num [coordUpdate, rho, softThreshold, colNormSq, Finset.sum_range_succ,
          Function.update_apply, abs_of_pos, abs_of_neg, abs_of_nonneg, max_def]
      · simp [hj0, hj1]
  have c1 : ¬ (sweepChange 2 (fun _ => (0:ℚ)) (fun j => if j = 1 then (-3/28 : ℚ) else 0) < 1/10) := by
    norm_num [sweepChange, List.range_succ, abs_of_pos, abs_of_neg, abs_of_nonneg, max_def]
  have c2 : ¬ (sweepChange 2 (fun j => if j = 1 then (-3/28 : ℚ) else 0)
      (fun j => if j = 0 then (3/28 : ℚ) else if j = 1 then -159/784 else 0) < 1/10) := by
    norm_num [sweepChange, List.range_succ, abs_of_pos, abs_of_neg, abs_of_nonneg, max_def]
  have c3 : sweepChange 2 (fun j => if j = 0 then (3/28 : ℚ) else if j = 1 then -159/784 else 0)
      (fun j => if j = 0 then (159/784 : ℚ) else if j = 1 then -6327/21952 else 0) < 1/10 := by
    norm_num [sweepChange, List.range_succ, abs_of_pos, abs_of_neg, abs_of_nonneg, max_def]
  have hb0 : intercept0 (fun i j => if j = 0 then (if i = 0 then (1:ℚ) else if i = 1 then 0 else -1)
        else (if i = 0 then 6/5 else if i = 1 then -2/5 else -4/5))
      (fun i => if i = 0 then (-1/5 : ℚ) else if i = 1 then 2/5 else -1/5) 3 2 (fun _ => 0) = 0 := by
    norm_num [intercept0, meanVec, colSum, Finset.sum_range_succ]
  have e1 : cdIter (fun i j => if j = 0 then (if i = 0 then (1:ℚ) else if i = 1 then 0 else -1)
        else (if i = 0 then 6/5 else if i = 1 then -2/5 else -4/5))
      (fun i => if i = 0 then (-1/5 : ℚ) else if i = 1 then 2/5 else -1/5)
      3 2 0 0 (1/10) 10 (fun _ => 0) =
      cdIter (fun i j => if j = 0 then (if i = 0 then (1:ℚ) else if i = 1 then 0 else -1)
        else (if i = 0 then 6/5 else if i = 1 then -2/5 else -4/5))
      (fun i => if i = 0 then (-1/5 : ℚ) else if i = 1 then 2/5 else -1/5)
      3 2 0 0 (1/10) 9 (fun j => if j = 1 then (-3/28 : ℚ) else 0) :=
    cdIter_step_continue _ _ 3 2 0 0 (1/10) 9 _ _ h1 c1
  have e2 : cdIter (fun i j => if j = 0 then (if i = 0 then (1:ℚ) else if i = 1 then 0 else -1)
        else (if i = 0 then 6/5 else if i = 1 then -2/5 else -4/5))
      (fun i => if i = 0 then (-1/5 : ℚ) else if i = 1 then 2/5 else -1/5)
      3 2 0 0 (1/10) 9 (fun j => if j = 1 then (-3/28 : ℚ) else 0) =
      cdIter (fun i j => if j = 0 then (if i = 0 then (1:ℚ) else if i = 1 then 0 else -1)
        else (if i = 0 then 6/5 else if i = 1 then -2/5 else -4/5))
      (fun i => if i = 0 then (-1/5 : ℚ) else if i = 1 then 2/5 else -1/5)
      3 2 0 0 (1/10) 8 (fun j => if j = 0 then (3/28 : ℚ) else if j = 1 then -159/784 else 0) :=
    cdIter_step_continue _ _ 3 2 0 0 (1/10) 8 _ _ h2 c2
  have e3 : cdIter (fun i j => if j = 0 then (if i = 0 then (1:ℚ) else if i = 1 then 0 else -1)
        else (if i = 0 then 6/5 else if i = 1 then -2/5 else -4/5))
      (fun i => if i = 0 then (-1/5 : ℚ) else if i = 1 then 2/5 else -1/5)
      3 2 0 0 (1/10) 8 (fun j => if j = 0 then (3/28 : ℚ) else if j = 1 then -159/784 else 0) =
      ((fun j => if j = 0 then (159/784 : ℚ) else if j = 1 then -6327/21952 else 0), true) :=
    cdIter_step_stop _ _ 3 2 0 0 (1/10) 7 _ _ h3 c3
  have hrun : cdSolve (fun i j => if j = 0 then (if i = 0 then (1:ℚ) else if i = 1 then 0 else -1)
        else (if i = 0 then 6/5 else if i = 1 then -2/5 else -4/5))
      (fun i => if i = 0 then (-1/5 : ℚ) else if i = 1 then 2/5 else -1/5)
      3 2 0 (1/10) 10 (fun _ => 0) =
      (((fun j => if j = 0 then (159/784 : ℚ) else if j = 1 then -6327/21952 else 0), true), 0) := by
    show (cdIter _ _ 3 2 0 (intercept0 _ _ 3 2 (fun _ => 0)) (1/10) 10 (fun _ => 0),
      intercept0 _ _ 3 2 (fun _ => 0)) = _
    rw [hb0, e1, e2, e3]
  refine ⟨by rw [hrun], ?_, ?_⟩
  · intro j hj
    rw [hrun]
    interval_cases j <;> norm_num [Finset.sum_range_succ]
  · intro hcontra
    have h0 := hcontra 0 (by norm_num)
    rw [hrun] at h0
    norm_num [abs_of_neg, abs_of_nonpos] at h0

/-- On an orthogonal design the partial residual of coordinate j is
independent of the current coefficients. -/
lemma rho_orth (X : ℕ → ℕ → ℚ) (y : ℕ → ℚ) (n p : ℕ) (b0 : ℚ)
    (horth : ∀ j k, j < p → k < p → j ≠ k →
      (∑ i ∈ Finset.range n, X i j * X i k) = 0)
    (b : ℕ → ℚ) (j : ℕ) (hj : j < p) :
    rho X y n p b0 b j = (dotCol X n j y - b0 * colSum X n j) / n := by
  unfold rho dotCol colSum
  congr 1
  have key : ∀ i : ℕ,
      X i j * (y i - b0 - (∑ k ∈ Finset.range p, X i k * b k) + X i j * b j) =
      X i j * y i - b0 * X i j -
        (∑ k ∈ Finset.range p, X i j * (X i k * b k)) + X i j * X i j * b j := by
    intro i
    rw [← Finset.mul_sum]
    ring
  rw [Finset.sum_congr rfl (fun i _ => key i), Finset.sum_add_distrib,
    Finset.sum_sub_distrib, Finset.sum_sub_distrib]
  have h2 : (∑ i ∈ Finset.range n, b0 * X i j) =
      b0 * ∑ i ∈ Finset.range n, X i j := by
    rw [Finset.mul_sum]
  have h3 : (∑ i ∈ Finset.range n, ∑ k ∈ Finset.range p, X i j * (X i k * b k)) =
      ∑ k ∈ Finset.range p, (∑ i ∈ Finset.range n, X i j * X i k) * b k := by
    rw [Finset.sum_comm]
    refine Finset.sum_congr rfl (fun k _ => ?_)
    rw [Finset.sum_mul]
    exact Finset.sum_congr rfl (fun i _ => by ring)
  have h4 : (∑ i ∈ Finset.range n, X i j * X i j * b j) =
      (∑ i ∈ Finset.range n, X i j * X i j) * b j := by
    rw [Finset.sum_mul]
  rw [h2, h3, h4]
  have hsingle : (∑ k ∈ Finset.range p, (∑ i ∈ Finset.range n, X i j * X i k) * b k) =
      (∑ i ∈ Finset.range n, X i j * X i j) * b j := by
    refine Finset.sum_eq_single_of_mem j (Finset.mem_range.mpr hj) ?_
    intro k hk hkj
    rw [horth j k hj (Finset.mem_range.mp hk) (Ne.symm hkj)]
    ring
  rw [hsingle]
  ring

/-- A coordinate fold whose update values do not depend on the accumulated
coefficients writes each listed coordinate once and leaves the rest. -/

lemma foldl_update_indep (upd : (ℕ → ℚ) → ℕ → ℚ) (v : ℕ → ℚ) :
    ∀ (l : List ℕ), (∀ b j, j ∈ l → upd b j = v j) → ∀ (s : ℕ → ℚ) (k : ℕ),
      l.foldl (fun b j => Function.update b j (upd b j)) s k =
        if k ∈ l then v k else s k := by
  intro l
  induction l with
  | nil => intro _ s k; simp
  | cons j t ih =>
    intro hv s k
    rw [List.foldl_cons,
      ih (fun b m hm => hv b m (List.mem_cons_of_mem j hm)) _ k]
    by_cases hkt : k ∈ t
    · rw [if_pos hkt, if_pos (List.mem_cons_of_mem j hkt)]
    · rw [if_neg hkt]
      by_cases hkj : k = j
      · subst hkj
        rw [Function.update_same, if_pos (List.mem_cons_self k t), hv s k (List.mem_cons_self k t)]
      · rw [Function.update_noteq hkj, if_neg (fun h => by
          rcases List.mem_cons.mp h with h1 | h1
          · exact hkj h1
          · exact hkt h1)]

/-- On an orthogonal design a full sweep sets every coordinate below p to
its closed-form solution and leaves the rest unchanged. -/
lemma sweep_orth (X : ℕ → ℕ → ℚ) (y : ℕ → ℚ) (n p : ℕ) (lam b0 : ℚ)
    (horth : ∀ j k, j < p → k < p → j ≠ k →
      (∑ i ∈ Finset.range n, X i j * X i k) = 0)
    (β : ℕ → ℚ) :
    sweep X y n p lam b0 β =
      fun k => if k ∈ List.range p then orthSol X y n lam b0 k else β k := by
  funext k
  unfold sweep
  refine foldl_update_indep (fun b m => coordUpdate X y n p lam b0 b m)
    (orthSol X y n lam b0) (List.range p) ?_ β k
  intro b j hj
  show coordUpdate X y n p lam b0 b j = orthSol X y n lam b0 j
  unfold coordUpdate orthSol
  rw [rho_orth X y n p b0 horth b j (List.mem_range.mp hj)]

/-- On an orthogonal design the solver's coefficients after any positive
iteration budget are the closed-form solutions. -/

lemma cdSolve_orth (X : ℕ → ℕ → ℚ) (y : ℕ → ℚ) (n p : ℕ) (lam b0 tol : ℚ)
    (horth : ∀ j k, j < p → k < p → j ≠ k →
      (∑ i ∈ Finset.range n, X i j * X i k) = 0)
    (m : ℕ) :
    (cdIter X y n p lam b0 tol (m + 1) (fun _ => 0)).1 =
      fun k => if k ∈ List.range p then orthSol X y n lam b0 k else 0 := by
  have hfixsol : sweep X y n p lam b0
      (fun k => if k ∈ List.range p then orthSol X y n lam b0 k else 0) =
      fun k => if k ∈ List.range p then orthSol X y n lam b0 k else 0 := by
    rw [sweep_orth X y n p lam b0 horth]
    funext k
    by_cases hk : k ∈ List.range p
    · simp only [if_pos hk]
    · simp only [if_neg hk]
  simp only [cdIter]
  rw [sweep_orth X y n p lam b0 horth (fun _ => 0)]
  split
  · rfl
  · exact cdIter_fixes X y n p lam b0 tol _ hfixsol m

/-- A nonzero closed-form coordinate at the larger penalty is nonzero at
the smaller penalty as well. -/
lemma orthSol_ne_zero_mono (X : ℕ → ℕ → ℚ) (y : ℕ → ℚ) (n : ℕ)
    (lam1 lam2 b0 : ℚ) (h0 : 0 ≤ lam1) (h12 : lam1 < lam2) (j : ℕ)
    (h : orthSol X y n lam2 b0 j ≠ 0) : orthSol X y n lam1 b0 j ≠ 0 := by
  unfold orthSol at h ⊢
  obtain ⟨hnum, hden⟩ := div_ne_zero_iff.mp h
  refine div_ne_zero ?_ hden
  have habs : lam2 < |(dotCol X n j y - b0 * colSum X n j) / n| := by
    by_contra hle
    exact hnum (softThreshold_eq_zero (not_lt.mp hle))
  exact softThreshold_ne_zero h0 (lt_trans h12 habs)

/-- C7 amended: on an orthogonal feature design, the number of non-zero
fitted coefficients is antitone in the penalty: a larger penalty yields
at most as many non-zero coefficients as a smaller one. -/

theorem C7_orthogonal_sparsity_antitone (X : ℕ → ℕ → ℚ) (y : ℕ → ℚ)
    (n p : ℕ) (lam1 lam2 tol : ℚ) (maxIter : ℕ)
    (horth : ∀ j k, j < p → k < p → j ≠ k →
      (∑ i ∈ Finset.range n, X i j * X i k) = 0)
    (h0 : 0 ≤ lam1) (h12 : lam1 < lam2) (hfuel : 1 ≤ maxIter) :
    nnz ((List.range p).map (cdSolve X y n p lam2 tol maxIter (fun _ => 0)).1.1) ≤
    nnz ((List.range p).map (cdSolve X y n p lam1 tol maxIter (fun _ => 0)).1.1) := by
  obtain ⟨m, rfl⟩ : ∃ m, maxIter = m + 1 :=
    ⟨maxIter - 1, (Nat.succ_pred_eq_of_pos hfuel).symm⟩
  have hrun : ∀ lam, (cdSolve X y n p lam tol (m + 1) (fun _ => 0)).1.1 =
      fun k => if k ∈ List.range p then
        orthSol X y n lam (intercept0 X y n p (fun _ => 0)) k else 0 := by
    intro lam
    exact cdSolve_orth X y n p lam _ tol horth m
  rw [hrun lam1, hrun lam2]
  unfold nnz
  rw [List.filter_map, List.filter_map, List.length_map, List.length_map,
    ← List.countP_eq_length_filter, ← List.countP_eq_length_filter]
  refine List.countP_mono_left ?_
  intro j hj hdec
  simp only [Function.comp_apply, decide_eq_true_eq] at hdec ⊢
  rw [if_pos hj] at hdec ⊢
  exact orthSol_ne_zero_mono X y n lam1 lam2 _ h0 h12 j hdec

/-- C7 amended witness: a concrete orthogonal two-feature design satisfies
the sparsity antitonicity at penalties 1/2 < 1. -/
theorem C7_amended_witness :
    ((∀ j k, j < 2 → k < 2 → j ≠ k →
      (∑ i ∈ Finset.range 2,
        (fun i j => if j = 0 then (if i = 0 then (1:ℚ) else -1)
          else (if i = 0 then 1 else 1)) i j *
        (fun i j => if j = 0 then (if i = 0 then (1:ℚ) else -1)
          else (if i = 0 then 1 else 1)) i k) = 0) ∧
      (0:ℚ) ≤ 1/2 ∧ (1/2:ℚ) < 1 ∧ 1 ≤ 3) ∧
    nnz ((List.range 2).map (cdSolve
      (fun i j => if j = 0 then (if i = 0 then (1:ℚ) else -1)
        else (if i = 0 then 1 else 1))
      (fun i => if i = 0 then (1:ℚ) else 0) 2 2 1 (1/10) 3 (fun _ => 0)).1.1) ≤
    nnz ((List.range 2).map (cdSolve
      (fun i j => if j = 0 then (if i = 0 then (1:ℚ) else -1)
        else (if i = 0 then 1 else 1))
      (fun i => if i = 0 then (1:ℚ) else 0) 2 2 (1/2) (1/10) 3 (fun _ => 0)).1.1) := by
  have horth : ∀ j k, j < 2 → k < 2 → j ≠ k →
      (∑ i ∈ Finset.range 2,
        (fun i j => if j = 0 then (if i = 0 then (1:ℚ) else -1)
          else (if i = 0 then 1 else 1)) i j *
        (fun i j => if j = 0 then (if i = 0 then (1:ℚ) else -1)
          else (if i = 0 then 1 else 1)) i k) = 0 := by
    intro j k hj hk hjk
    interval_cases j <;> interval_cases k <;>
      first
        | exact absurd rfl hjk
        | norm_num [Finset.sum_range_succ]
  exact ⟨⟨horth, by norm_num, by norm_num, by norm_num⟩,
    C7_orthogonal_sparsity_antitone
      (fun i j => if j = 0 then (if i = 0 then (1:ℚ) else -1)
        else (if i = 0 then 1 else 1))
      (fun i => if i = 0 then (1:ℚ) else 0) 2 2 (1/2) 1 (1/10) 3 horth
      (by norm_num) (by norm_num) (by norm_num)⟩

/-- C7 counterexample: on a concrete two-feature dataset with unequal
feature scales, the fit at the smaller penalty 1 converges to exactly one
non-zero coefficient while the fit at the larger penalty 2 converges with
two non-zero coefficients, so sparsity is not antitone in the penalty. -/

theorem C7_counterexample :
    (1:ℚ) < 2 ∧
    nnz ((List.range 2).map (cdSolve (fun i j => if j = 0 then (if i = 0 then (20:ℚ) else if i = 1 then 0 else -20)
        else (if i = 0 then 2 else if i = 1 then -2 else 0))
      (fun i => if i = 0 then (8/5 : ℚ) else if i = 1 then -43/20 else 11/20)
      3 2 1 (1/10) 10 (fun _ => 0)).1.1) <
    nnz ((List.range 2).map (cdSolve (fun i j => if j = 0 then (if i = 0 then (20:ℚ) else if i = 1 then 0 else -20)
        else (if i = 0 then 2 else if i = 1 then -2 else 0))
      (fun i => if i = 0 then (8/5 : ℚ) else if i = 1 then -43/20 else 11/20)
      3 2 2 (1/10) 10 (fun _ => 0)).1.1) ∧
    (cdSolve (fun i j => if j = 0 then (if i = 0 then (20:ℚ) else if i = 1 then 0 else -20)
        else (if i = 0 then 2 else if i = 1 then -2 else 0))
      (fun i => if i = 0 then (8/5 : ℚ) else if i = 1 then -43/20 else 11/20)
      3 2 1 (1/10) 10 (fun _ => 0)).1.2 = true ∧
    (cdSolve (fun i j => if j = 0 then (if i = 0 then (20:ℚ) else if i = 1 then 0 else -20)
        else (if i = 0 then 2 else if i = 1 then -2 else 0))
      (fun i => if i = 0 then (8/5 : ℚ) else if i = 1 then -43/20 else 11/20)
      3 2 2 (1/10) 10 (fun _ => 0)).1.2 = true := by
  have hb0 : intercept0 (fun i j => if j = 0 then (if i = 0 then (20:ℚ) else if i = 1 then 0 else -20)
        else (if i = 0 then 2 else if i = 1 then -2 else 0))
      (fun i => if i = 0 then (8/5 : ℚ) else if i = 1 then -43/20 else 11/20) 3 2 (fun _ => 0) = 0 := by
    norm_num [intercept0, meanVec, colSum, Finset.sum_range_succ]
  have h1 : sweep (fun i j => if j = 0 then (if i = 0 then (20:ℚ) else if i = 1 then 0 else -20)
        else (if i = 0 then 2 else if i = 1 then -2 else 0))
      (fun i => if i = 0 then (8/5 : ℚ) else if i = 1 then -43/20 else 11/20)
      3 2 1 0 (fun _ => (0:ℚ)) = (fun j => if j = 0 then (9/400 : ℚ) else if j = 1 then 9/20 else 0) := by
    funext j
    simp only [sweep, List.range_succ, List.range_zero, List.nil_append, List.cons_append,
      List.foldl_cons, List.foldl_nil]
    rw [Function.update_apply, Function.update_apply]
    by_cases hj1 : j = 1
    · simp only [hj1, if_pos rfl, if_neg (by norm_num : (1:ℕ) ≠ 0)]
      norm_num [coordUpdate, rho, softThreshold, colNormSq, Finset.sum_range_succ,
        Function.update_apply, abs_of_pos, abs_of_neg, abs_of_nonneg, max_def]
    · by_cases hj0 : j = 0
      · simp only [hj0, hj1, if_neg (by norm_num : (0:ℕ) ≠ 1), if_pos rfl]
        norm_num [coordUpdate, rho, softThreshold, colNormSq, Finset.sum_range_succ,
          Function.update_apply, abs_of_pos, abs_of_neg, abs_of_nonneg, max_def]
      · simp [hj0, hj1]
  have h2 : sweep (fun i j => if j = 0 then (if i = 0 then (20:ℚ) else if i = 1 then 0 else -20)
        else (if i = 0 then 2 else if i = 1 then -2 else 0))
      (fun i => if i = 0 then (8/5 : ℚ) else if i = 1 then -43/20 else 11/20)
      3 2 1 0 (fun j => if j = 0 then (9/400 : ℚ) else if j = 1 then 9/20 else 0) = (fun j => if j = 0 then (0 : ℚ) else if j = 1 then 9/16 else 0) := by
    funext j
    simp only [sweep, List.range_succ, List.range_zero, List.nil_append, List.cons_append,
      List.foldl_cons, List.foldl_nil]
    rw [Function.update_apply, Function.update_apply]
    by_cases hj1 : j = 1
    · simp only [hj1, if_pos rfl, if_neg (by norm_num : (1:ℕ) ≠ 0)]
      norm_num [coordUpdate, rho, softThreshold, colNormSq, Finset.sum_range_succ,
        Function.update_apply, abs_of_pos, abs_of_neg, abs_of_nonneg, max_def]
    · by_cases hj0 : j = 0
      · simp only [hj0, hj1, if_neg (by norm_num : (0:ℕ) ≠ 1), if_pos rfl]
        norm_num [coordUpdate, rho, softThreshold, colNormSq, Finset.sum_range_succ,
          Function.update_apply, abs_of_pos, abs_of_neg, abs_of_nonneg, max_def]
      · simp [hj0, hj1]
  have h3 : sweep (fun i j => if j = 0 then (if i = 0 then (20:ℚ) else if i = 1 then 0 else -20)
        else (if i = 0 then 2 else if i = 1 then -2 else 0))
      (fun i => if i = 0 then (8/5 : ℚ) else if i = 1 then -43/20 else 11/20)
      3 2 1 0 (fun j => if j = 0 then (0 : ℚ) else if j = 1 then 9/16 else 0) = (fun j => if j = 0 then (0 : ℚ) else if j = 1 then 9/16 else 0) := by
    funext j
    simp only [sweep, List.range_succ, List.range_zero, List.nil_append, List.cons_append,
      List.foldl_cons, List.foldl_nil]
    rw [Function.update_apply, Function.update_apply]
    by_cases hj1 : j = 1
    · simp only [hj1, if_pos rfl, if_neg (by norm_num : (1:ℕ) ≠ 0)]
      norm_num [coordUpdate, rho, softThreshold, colNormSq, Finset.sum_range_succ,
        Function.update_apply, abs_of_pos, abs_of_neg, abs_of_nonneg, max_def]
    · by_cases hj0 : j = 0
      · simp only [hj0, hj1, if_neg (by norm_num : (0:ℕ) ≠ 1), if_pos rfl]
        norm_num [coordUpdate, rho, softThreshold, colNormSq, Finset.sum_range_succ,
          Function.update_apply, abs_of_pos, abs_of_neg, abs_of_nonneg, max_def]
      · simp [hj0, hj1]
  have g1 : sweep (fun i j => if j = 0 then (if i = 0 then (20:ℚ) else if i = 1 then 0 else -20)
        else (if i = 0 then 2 else if i = 1 then -2 else 0))
      (fun i => if i = 0 then (8/5 : ℚ) else if i = 1 then -43/20 else 11/20)
      3 2 2 0 (fun _ => (0:ℚ)) = (fun j => if j = 0 then (3/160 : ℚ) else if j = 1 then 3/32 else 0) := by
    funext j
    simp only [sweep, List.range_succ, List.range_zero, List.nil_append, List.cons_append,
      List.foldl_cons, List.foldl_nil]
    rw [Function.update_apply, Function.update_apply]
    by_cases hj1 : j = 1
    · simp only [hj1, if_pos rfl, if_neg (by norm_num : (1:ℕ) ≠ 0)]
      norm_num [coordUpdate, rho, softThreshold, colNormSq, Finset.sum_range_succ,
        Function.update_apply, abs_of_pos, abs_of_neg, abs_of_nonneg, max_def]
    · by_cases hj0 : j = 0
      · simp only [hj0, hj1, if_neg (by norm_num : (0:ℕ) ≠ 1), if_pos rfl]
        norm_num [coordUpdate, rho, softThreshold, colNormSq, Finset.sum_range_succ,
          Function.update_apply, abs_of_pos, abs_of_neg, abs_of_nonneg, max_def]
      · simp [hj0, hj1]
  have c1 : ¬ (sweepChange 2 (fun _ => (0:ℚ)) (fun j => if j = 0 then (9/400 : ℚ) else if j = 1 then 9/20 else 0) < 1/10) := by
    norm_num [sweepChange, List.range_succ, abs_of_pos, abs_of_neg, abs_of_nonneg, max_def]
  have c2 : ¬ (sweepChange 2 (fun j => if j = 0 then (9/400 : ℚ) else if j = 1 then 9/20 else 0) (fun j => if j = 0 then (0 : ℚ) else if j = 1 then 9/16 else 0) < 1/10) := by
    norm_num [sweepChange, List.range_succ, abs_of_pos, abs_of_neg, abs_of_nonneg, max_def]
  have c3 : sweepChange 2 (fun j => if j = 0 then (0 : ℚ) else if j = 1 then 9/16 else 0) (fun j => if j = 0 then (0 : ℚ) else if j = 1 then 9/16 else 0) < 1/10 := by
    norm_num [sweepChange, List.range_succ, abs_of_pos, abs_of_neg, abs_of_nonneg, max_def]
  have d1c : sweepChange 2 (fun _ => (0:ℚ)) (fun j => if j = 0 then (3/160 : ℚ) else if j = 1 then 3/32 else 0) < 1/10 := by
    norm_num [sweepChange, List.range_succ, abs_of_pos, abs_of_neg, abs_of_nonneg, max_def]
  have e1 : cdIter (fun i j => if j = 0 then (if i = 0 then (20:ℚ) else if i = 1 then 0 else -20)
        else (if i = 0 then 2 else if i = 1 then -2 else 0))
      (fun i => if i = 0 then (8/5 : ℚ) else if i = 1 then -43/20 else 11/20) 3 2 1 0 (1/10) 10 (fun _ => (0:ℚ)) =
      cdIter (fun i j => if j = 0 then (if i = 0 then (20:ℚ) else if i = 1 then 0 else -20)
        else (if i = 0 then 2 else if i = 1 then -2 else 0))
      (fun i => if i = 0 then (8/5 : ℚ) else if i = 1 then -43/20 else 11/20) 3 2 1 0 (1/10) 9 (fun j => if j = 0 then (9/400 : ℚ) else if j = 1 then 9/20 else 0) :=
    cdIter_step_continue _ _ 3 2 1 0 (1/10) 9 _ _ h1 c1
  have e2 : cdIter (fun i j => if j = 0 then (if i = 0 then (20:ℚ) else if i = 1 then 0 else -20)
        else (if i = 0 then 2 else if i = 1 then -2 else 0))
      (fun i => if i = 0 then (8/5 : ℚ) else if i = 1 then -43/20 else 11/20) 3 2 1 0 (1/10) 9 (fun j => if j = 0 then (9/400 : ℚ) else if j = 1 then 9/20 else 0) =
      cdIter (fun i j => if j = 0 then (if i = 0 then (20:ℚ) else if i = 1 then 0 else -20)
        else (if i = 0 then 2 else if i = 1 then -2 else 0))
      (fun i => if i = 0 then (8/5 : ℚ) else if i = 1 then -43/20 else 11/20) 3 2 1 0 (1/10) 8 (fun j => if j = 0 then (0 : ℚ) else if j = 1 then 9/16 else 0) :=
    cdIter_step_continue _ _ 3 2 1 0 (1/10) 8 _ _ h2 c2
  have e3 : cdIter (fun i j => if j = 0 then (if i = 0 then (20:ℚ) else if i = 1 then 0 else -20)
        else (if i = 0 then 2 else if i = 1 then -2 else 0))
      (fun i => if i = 0 then (8/5 : ℚ) else if i = 1 then -43/20 else 11/20) 3 2 1 0 (1/10) 8 (fun j => if j = 0 then (0 : ℚ) else if j = 1 then 9/16 else 0) = ((fun j => if j = 0 then (0 : ℚ) else if j = 1 then 9/16 else 0), true) :=
    cdIter_step_stop _ _ 3 2 1 0 (1/10) 7 _ _ h3 c3
  have f1 : cdIter (fun i j => if j = 0 then (if i = 0 then (20:ℚ) else if i = 1 then 0 else -20)
        else (if i = 0 then 2 else if i = 1 then -2 else 0))
      (fun i => if i = 0 then (8/5 : ℚ) else if i = 1 then -43/20 else 11/20) 3 2 2 0 (1/10) 10 (fun _ => (0:ℚ)) = ((fun j => if j = 0 then (3/160 : ℚ) else if j = 1 then 3/32 else 0), true) :=
    cdIter_step_stop _ _ 3 2 2 0 (1/10) 9 _ _ g1 d1c
  have hrun1 : cdSolve (fun i j => if j = 0 then (if i = 0 then (20:ℚ) else if i = 1 then 0 else -20)
        else (if i = 0 then 2 else if i = 1 then -2 else 0))
      (fun i => if i = 0 then (8/5 : ℚ) else if i = 1 then -43/20 else 11/20)
      3 2 1 (1/10) 10 (fun _ => 0) = (((fun j => if j = 0 then (0 : ℚ) else if j = 1 then 9/16 else 0), true), 0) := by
    show (cdIter _ _ 3 2 1 (intercept0 _ _ 3 2 (fun _ => 0)) (1/10) 10 (fun _ => 0),
      intercept0 _ _ 3 2 (fun _ => 0)) = _
    rw [hb0, e1, e2, e3]
  have hrun2 : cdSolve (fun i j => if j = 0 then (if i = 0 then (20:ℚ) else if i = 1 then 0 else -20)
        else (if i = 0 then 2 else if i = 1 then -2 else 0))
      (fun i => if i = 0 then (8/5 : ℚ) else if i = 1 then -43/20 else 11/20)
      3 2 2 (1/10) 10 (fun _ => 0) = (((fun j => if j = 0 then (3/160 : ℚ) else if j = 1 then 3/32 else 0), true), 0) := by
    show (cdIter _ _ 3 2 2 (intercept0 _ _ 3 2 (fun _ => 0)) (1/10) 10 (fun _ => 0),
      intercept0 _ _ 3 2 (fun _ => 0)) = _
    rw [hb0, f1]
  refine ⟨by norm_num, ?_, by rw [hrun1], by rw [hrun2]⟩
  rw [hrun1, hrun2]
  norm_num [nnz, List.range_succ, List.filter]

end LassoSpec
